import Mathlib

/-!
Shallow embedding of `src/main_app.py`, a Streamlit dashboard over a CSV of
football-club Elo ratings.

Modelling conventions:
* A parsed CSV row (before date conversion) is a `RawRow`; the `date` field is
  still a string.  A row after `pd.to_datetime` is a `Record`; dates are
  modelled as `Nat` (days on an abstract calendar axis: only order matters).
  The `elo` column is numeric; it is modelled as `Rat` (it is only carried
  through, never computed with).
* The file system at the fixed CSV path is `Option (List RawRow)`:
  `none` means the file does not exist (`pd.read_csv` raises
  `FileNotFoundError`), `some rows` means it parses to those rows.
* `pd.to_datetime` on one cell is an abstract parameter
  `parseDate : String → Option Nat`; `none` models an unparseable date,
  on which pandas raises.  A Python exception that is not caught is the
  `PyResult.raised` constructor.
* `df.sort_values` is modelled as a stable insertion sort on the date column.
  pandas defaults to an unstable quicksort; every theorem below that concerns
  `sort_values` uses only that the result is a permutation of the input that
  is sorted by date, which holds for any sorting algorithm.  Stability itself
  is never assumed by a theorem in this file.
* `st.error` / `st.warning` / chart and table rendering are recorded in an
  `Output` structure instead of being drawn on a screen.
* `st.multiselect` returns a sublist of its `options` argument; the user is an
  abstract function `choose : options → default → chosen`, and the widget
  guarantee is modelled by intersecting the user answer with `options`.
-/

namespace MainApp

/-- Outcome of running a piece of Python code: either a value, or an uncaught
exception propagating to the process level. -/
inductive PyResult (α : Type) where
  | ok : α → PyResult α
  | raised : PyResult α
deriving DecidableEq, Repr

/-- One CSV row as read by `pd.read_csv`, before date conversion. -/
structure RawRow where
  club : String
  country : String
  date : String
  elo : Rat
deriving DecidableEq, Repr

/-- One row of the working DataFrame after `pd.to_datetime` on the date
column. -/
structure Record where
  club : String
  country : String
  date : Nat
  elo : Rat
deriving DecidableEq, Repr

/-- The DataFrame built by `load_data`: an ordered collection of records. -/
abbrev Dataset := List Record

/-- Line 26: the country codes of the five leagues that are kept. -/
def top_leagues : List String := ["GER", "ESP", "ENG", "FRA", "ITA"]

/-- Line 41: the hard-coded CSV path. -/
def filepath : String := "/workspaces/population-dashboard/data/EloRatings.csv"

/-- Line 34: the message shown by `st.error` when the file is missing. -/
def fileNotFoundMsg (fp : String) : String :=
  "Error: The file " ++ fp ++
    " was not found. Please make sure it is in the same folder as the script."

/-- Line 70: the message shown by `st.warning` when no club is selected. -/
def warningMsg : String :=
  "Please select at least one club from the sidebar to see the visualizations."

/-- Line 21, `pd.to_datetime(df[date])`: parse every date cell; the whole
conversion raises (returns `none`) as soon as any single cell is
unparseable. -/
def to_datetime (parseDate : String → Option Nat) : List RawRow → Option (List Record)
  | [] => some []
  | r :: rs =>
    match parseDate r.date with
    | none => none
    | some d =>
      match to_datetime parseDate rs with
      | none => none
      | some recs => some ({ club := r.club, country := r.country, date := d, elo := r.elo } :: recs)

/-- Lines 13-35, `load_data`: read the CSV (raising `FileNotFoundError` if the
file is absent, which the `except` clause catches, shows via `st.error` and
turns into `None`), convert the date column (an unparseable date raises and is
NOT caught), then keep only the rows whose country is in `top_leagues`.
Returns the dataframe-or-`None` together with the error messages shown. -/
def load_data (parseDate : String → Option Nat) (fs : Option (List RawRow)) :
    PyResult (Option Dataset × List String) :=
  match fs with
  | none => .ok (none, [fileNotFoundMsg filepath])
  | some rows =>
    match to_datetime parseDate rows with
    | none => .raised
    | some df => .ok (some (df.filter (fun r => top_leagues.contains r.country)), [])

/-- Helper for `Series.unique`: keep the first occurrence of each value,
remembering in `seen` the values already produced. -/
def uniqueAux : List String → List String → List String
  | [], _ => []
  | x :: xs, seen =>
    if x ∈ seen then uniqueAux xs seen else x :: uniqueAux xs (x :: seen)

/-- `Series.unique`: deduplicate, keeping first occurrences in order. -/
def unique (l : List String) : List String := uniqueAux l []

/-- Lexicographic comparison of character lists by code point, mirroring how
Python compares strings in `sorted`.  Written as an executable boolean
function so that the kernel can evaluate it on concrete club names. -/
def lexLE : List Char → List Char → Bool
  | [], _ => true
  | _ :: _, [] => false
  | a :: as, b :: bs => if a < b then true else if b < a then false else lexLE as bs

/-- String comparison used by `sorted`: lexicographic on the character
data. -/
def strLE (a b : String) : Prop := lexLE a.data b.data = true

instance : DecidableRel strLE := fun a b =>
  inferInstanceAs (Decidable (lexLE a.data b.data = true))

/-- Line 56: `sorted(elo_data[club].unique())` — the options offered by the
multiselect widget. -/
def club_list (d : Dataset) : List String :=
  List.insertionSort strLE (unique (d.map Record.club))

/-- Line 60: the hard-coded preferred clubs. -/
def default_clubs : List String := ["Man City", "Real Madrid", "Bayern", "PSG", "Inter"]

/-- Line 64: `[club for club in default_clubs if club in club_list]`. -/
def default_selection (d : Dataset) : List String :=
  default_clubs.filter (fun c => (club_list d).contains c)

/-- Lines 61-65: the value of the multiselect widget.  The user answer
`choose options default` is intersected with `options`, modelling the widget
guarantee that only offered options can be selected. -/
def selected_clubs (choose : List String → List String → List String) (d : Dataset) :
    List String :=
  (choose (club_list d) (default_selection d)).filter (fun c => (club_list d).contains c)

/-- Line 73: `elo_data[elo_data[club].isin(selected_clubs)]`. -/
def subset_data (d : Dataset) (sel : List String) : Dataset :=
  d.filter (fun r => sel.contains r.club)

/-- Comparison on the date column, used by `sort_values(date)`. -/
def dateLE (a b : Record) : Prop := a.date ≤ b.date

instance : DecidableRel dateLE := fun a b => inferInstanceAs (Decidable (a.date ≤ b.date))

instance : IsTotal Record dateLE := ⟨fun a b => Nat.le_total a.date b.date⟩

instance : IsTrans Record dateLE := ⟨fun _ _ _ hab hbc => Nat.le_trans hab hbc⟩

/-- Line 99, `.sort_values(date)`: sort ascending by date (see the header
note: modelled by a sort whose output is a sorted permutation of its
input). -/
def sort_values_date (l : Dataset) : Dataset := List.insertionSort dateLE l

/-- Line 99, `.drop_duplicates(club, keep=last)`: keep, for each club, only
its last occurrence, preserving the order of the kept rows. -/
def drop_duplicates_club_last : Dataset → Dataset
  | [] => []
  | r :: rs =>
    if rs.any (fun x => x.club == r.club) then drop_duplicates_club_last rs
    else r :: drop_duplicates_club_last rs

/-- Line 99: `subset_data.sort_values(date).drop_duplicates(club, keep=last)`
applied to an already club-filtered frame. -/
def latest_ratings (ts : Dataset) : Dataset :=
  drop_duplicates_club_last (sort_values_date ts)

/-- Lines 73-119 data flow: from the loaded dataset and the selection, the two
derived views (time series, latest snapshot), together with the dataset
binding as it stands after both derivations (the pandas calls used —
boolean-mask selection, `sort_values`, `drop_duplicates` — all return new
frames and never write through to their input). -/
def deriveViews (d : Dataset) (sel : List String) : (Dataset × Dataset) × Dataset :=
  ((subset_data d sel, latest_ratings (subset_data d sel)), d)

/-- Everything the script hands to the Streamlit rendering boundary. -/
structure Output where
  errors : List String
  warnings : List String
  scatter_chart : Option Dataset
  bubble_chart : Option Dataset
  table : Option Dataset
deriving DecidableEq, Repr

/-- The mutable entities of one run, as they stand when the script ends: the
file at `filepath` and the `elo_data` binding. -/
structure RunState where
  fs : Option (List RawRow)
  elo_data : Option Dataset
deriving DecidableEq, Repr

/-- Lines 37-119: one full top-to-bottom run of the script for one user
interaction.  `choose` is the user at the multiselect widget. -/
def runApp (parseDate : String → Option Nat)
    (choose : List String → List String → List String)
    (fs : Option (List RawRow)) : PyResult (Output × RunState) :=
  match load_data parseDate fs with
  | .raised => .raised
  | .ok (elo_data, errs) =>
    match elo_data with
    | none =>
      .ok ({ errors := errs, warnings := [], scatter_chart := none,
             bubble_chart := none, table := none },
           { fs := fs, elo_data := none })
    | some d =>
      let sel := selected_clubs choose d
      if sel.isEmpty then
        .ok ({ errors := errs, warnings := [warningMsg], scatter_chart := none,
               bubble_chart := none, table := none },
             { fs := fs, elo_data := some d })
      else
        let v := deriveViews d sel
        .ok ({ errors := errs, warnings := [], scatter_chart := some v.1.1,
               bubble_chart := some v.1.2, table := some v.1.1 },
             { fs := fs, elo_data := some v.2 })

/-! ## Concrete fixtures

The scenario of spec §8: three rows for Man City and Real Madrid, plus one
USA row that the loader must drop. -/

/-- A concrete date parser: the three dates of the spec scenario, in day
numbers; anything else is unparseable. -/
def pdSample (s : String) : Option Nat :=
  if s = "2020-01-01" then some 100
  else if s = "2021-01-01" then some 465
  else if s = "2020-06-01" then some 252
  else none

/-- The CSV rows of the spec scenario, plus one row outside the allow-list. -/
def rowsSample : List RawRow :=
  [{ club := "Man City", country := "ENG", date := "2020-01-01", elo := 1900 },
   { club := "Man City", country := "ENG", date := "2021-01-01", elo := 1950 },
   { club := "Real Madrid", country := "ESP", date := "2020-06-01", elo := 2000 },
   { club := "LA Galaxy", country := "USA", date := "2020-01-01", elo := 1500 }]

/-- The first Man City record of the scenario, after date parsing. -/
def recMC0 : Record := { club := "Man City", country := "ENG", date := 100, elo := 1900 }

/-- The second (later) Man City record of the scenario. -/
def recMC1 : Record := { club := "Man City", country := "ENG", date := 465, elo := 1950 }

/-- The Real Madrid record of the scenario. -/
def recRM : Record := { club := "Real Madrid", country := "ESP", date := 252, elo := 2000 }

/-- The dataset `load_data` produces from `rowsSample`. -/
def dsSample : Dataset := [recMC0, recMC1, recRM]

/-- A user who picks the two clubs of the spec scenario. -/
def chooseMC : List String → List String → List String :=
  fun _ _ => ["Man City", "Real Madrid"]

/-- A user who deselects every club. -/
def chooseNone : List String → List String → List String := fun _ _ => []

/-- A raw row, outside the allow-list, whose date `pdSample` cannot parse. -/
def rowBad : RawRow :=
  { club := "LA Galaxy", country := "USA", date := "not-a-date", elo := 1500 }

/-- The scenario rows followed by the unparseable row. -/
def rowsBad : List RawRow := rowsSample ++ [rowBad]

/-- The output of the run driven by `chooseMC` on `rowsSample`. -/
def outSample : Output :=
  { errors := [], warnings := [],
    scatter_chart := some (subset_data dsSample (selected_clubs chooseMC dsSample)),
    bubble_chart := some (latest_ratings (subset_data dsSample (selected_clubs chooseMC dsSample))),
    table := some (subset_data dsSample (selected_clubs chooseMC dsSample)) }

/-- The final state of the run driven by `chooseMC` on `rowsSample`. -/
def stSample : RunState := { fs := some rowsSample, elo_data := some dsSample }

/-! ## Helper lemmas -/

theorem mem_uniqueAux :
    ∀ (l seen : List String) (y : String), y ∈ uniqueAux l seen ↔ y ∈ l ∧ y ∉ seen
  | [], _, y => by simp [uniqueAux]
  | x :: xs, seen, y => by
    by_cases hx : x ∈ seen
    · rw [uniqueAux, if_pos hx, mem_uniqueAux xs seen y]
      constructor
      · exact fun h => ⟨List.mem_cons_of_mem x h.1, h.2⟩
      · rintro ⟨hy, hys⟩
        rcases List.mem_cons.mp hy with rfl | hy
        · exact absurd hx hys
        · exact ⟨hy, hys⟩
    · rw [uniqueAux, if_neg hx]
      constructor
      · intro h
        rcases List.mem_cons.mp h with rfl | h
        · exact ⟨List.mem_cons_self y xs, hx⟩
        · have := (mem_uniqueAux xs (x :: seen) y).mp h
          exact ⟨List.mem_cons_of_mem x this.1,
            fun hy => this.2 (List.mem_cons_of_mem x hy)⟩
      · rintro ⟨hy, hys⟩
        rcases List.mem_cons.mp hy with rfl | hy
        · exact List.mem_cons_self y _
        · by_cases hyx : y = x
          · exact hyx ▸ List.mem_cons_self x _
          · exact List.mem_cons_of_mem x ((mem_uniqueAux xs (x :: seen) y).mpr
              ⟨hy, by simp [hyx, hys]⟩)

theorem nodup_uniqueAux : ∀ (l seen : List String), (uniqueAux l seen).Nodup
  | [], _ => List.nodup_nil
  | x :: xs, seen => by
    by_cases hx : x ∈ seen
    · rw [uniqueAux, if_pos hx]
      exact nodup_uniqueAux xs seen
    · rw [uniqueAux, if_neg hx]
      refine List.nodup_cons.mpr ⟨fun hmem => ?_, nodup_uniqueAux xs (x :: seen)⟩
      exact ((mem_uniqueAux xs (x :: seen) x).mp hmem).2 (List.mem_cons_self x seen)

theorem mem_unique (l : List String) (y : String) : y ∈ unique l ↔ y ∈ l := by
  rw [unique, mem_uniqueAux]
  simp

theorem nodup_unique (l : List String) : (unique l).Nodup := nodup_uniqueAux l []

theorem lexLE_total : ∀ as bs : List Char, lexLE as bs = true ∨ lexLE bs as = true
  | [], _ => Or.inl rfl
  | _ :: _, [] => Or.inr rfl
  | a :: as, b :: bs => by
    rw [lexLE, lexLE]
    by_cases hab : a < b
    · exact Or.inl (by simp [hab])
    · by_cases hba : b < a
      · exact Or.inr (by simp [hba])
      · rcases lexLE_total as bs with h | h
        · exact Or.inl (by simp [hab, hba, h])
        · exact Or.inr (by simp [hab, hba, h])

theorem lexLE_trans : ∀ as bs cs : List Char,
    lexLE as bs = true → lexLE bs cs = true → lexLE as cs = true
  | [], _, _, _, _ => rfl
  | a :: as, [], _, hab, _ => by rw [lexLE] at hab; exact absurd hab (by simp)
  | _ :: _, _ :: _, [], _, hbc => by rw [lexLE] at hbc; exact absurd hbc (by simp)
  | a :: as, b :: bs, c :: cs, hab, hbc => by
    rw [lexLE] at hab hbc ⊢
    rcases lt_trichotomy a b with h1 | h1 | h1
    · rcases lt_trichotomy b c with h2 | h2 | h2
      · simp [lt_trans h1 h2]
      · subst h2; simp [h1]
      · rw [if_neg (lt_asymm h2), if_pos h2] at hbc
        exact absurd hbc (by simp)
    · subst h1
      rw [if_neg (lt_irrefl a), if_neg (lt_irrefl a)] at hab
      rcases lt_trichotomy a c with h2 | h2 | h2
      · simp [h2]
      · subst h2
        rw [if_neg (lt_irrefl a), if_neg (lt_irrefl a)] at hbc ⊢
        exact lexLE_trans as bs cs hab hbc
      · rw [if_neg (lt_asymm h2), if_pos h2] at hbc
        exact absurd hbc (by simp)
    · rw [if_neg (lt_asymm h1), if_pos h1] at hab
      exact absurd hab (by simp)

instance : IsTotal String strLE :=
  ⟨fun a b => lexLE_total a.data b.data⟩

instance : IsTrans String strLE :=
  ⟨fun a b c hab hbc => lexLE_trans a.data b.data c.data hab hbc⟩

theorem lexLE_iff_lex : ∀ as bs : List Char,
    lexLE as bs = true ↔ as = bs ∨ List.Lex (· < ·) as bs
  | [], [] => by simp [lexLE]
  | [], _ :: _ => by
    rw [lexLE]
    exact iff_of_true rfl (Or.inr List.Lex.nil)
  | _ :: _, [] => by
    rw [lexLE]
    simp
  | a :: as, b :: bs => by
    rw [lexLE]
    rcases lt_trichotomy a b with h1 | h1 | h1
    · rw [if_pos h1]
      exact iff_of_true rfl (Or.inr (List.Lex.rel h1))
    · subst h1
      rw [if_neg (lt_irrefl a), if_neg (lt_irrefl a)]
      rw [lexLE_iff_lex as bs]
      constructor
      · rintro (rfl | h)
        · exact Or.inl rfl
        · exact Or.inr (List.Lex.cons h)
      · rintro (heq | hlex)
        · refine Or.inl ?_
          injection heq
        · cases hlex with
          | cons h => exact Or.inr h
          | rel h => exact absurd h (lt_irrefl a)
    · rw [if_neg (lt_asymm h1), if_pos h1]
      refine iff_of_false (by simp) ?_
      rintro (heq | hlex)
      · have hb : a = b := by injection heq
        exact absurd h1 (hb ▸ lt_irrefl a)
      · cases hlex with
        | cons h => exact absurd h1 (lt_irrefl a)
        | rel h => exact absurd h (lt_asymm h1)

theorem strLE_iff_lex (a b : String) :
    strLE a b ↔ a = b ∨ List.Lex (· < ·) a.data b.data := by
  rw [strLE, lexLE_iff_lex]
  constructor
  · rintro (h | h)
    · refine Or.inl ?_
      cases a; cases b
      exact congrArg String.mk h
    · exact Or.inr h
  · rintro (rfl | h)
    · exact Or.inl rfl
    · exact Or.inr h

theorem club_list_sorted (d : Dataset) : (club_list d).Sorted strLE :=
  List.sorted_insertionSort _ _

theorem club_list_nodup (d : Dataset) : (club_list d).Nodup :=
  ((List.perm_insertionSort strLE (unique (d.map Record.club))).nodup_iff).mpr
    (nodup_unique _)

theorem mem_club_list (d : Dataset) (c : String) :
    c ∈ club_list d ↔ ∃ r ∈ d, r.club = c := by
  rw [club_list, (List.perm_insertionSort strLE _).mem_iff, mem_unique]
  constructor
  · intro h
    rcases List.mem_map.mp h with ⟨r, hr, hrc⟩
    exact ⟨r, hr, hrc⟩
  · rintro ⟨r, hr, rfl⟩
    exact List.mem_map.mpr ⟨r, hr, rfl⟩

theorem drop_duplicates_filter (c : String) :
    ∀ l : Dataset,
      (drop_duplicates_club_last l).filter (fun r => r.club == c)
        = (l.filter (fun r => r.club == c)).getLast?.toList
  | [] => rfl
  | r :: rs => by
    by_cases hdup : rs.any (fun x => x.club == r.club)
    · rw [drop_duplicates_club_last, if_pos hdup]
      by_cases hrc : r.club = c
      · have hne : rs.filter (fun x => x.club == c) ≠ [] := by
          rcases List.any_eq_true.mp hdup with ⟨x, hx, hxr⟩
          intro hnil
          have hxc : x ∈ rs.filter (fun x => x.club == c) :=
            List.mem_filter.mpr ⟨hx, by rw [beq_iff_eq] at hxr ⊢; rw [hxr, hrc]⟩
          rw [hnil] at hxc
          exact List.not_mem_nil x hxc
        rw [drop_duplicates_filter c rs,
          List.filter_cons_of_pos (by simp [hrc])]
        cases hfil : rs.filter (fun x => x.club == c) with
        | nil => exact absurd hfil hne
        | cons a t => rw [List.getLast?_cons_cons]
      · rw [drop_duplicates_filter c rs,
          List.filter_cons_of_neg (by simp [hrc])]
    · rw [drop_duplicates_club_last, if_neg hdup]
      by_cases hrc : r.club = c
      · have hfil : rs.filter (fun x => x.club == c) = [] := by
          rw [List.filter_eq_nil_iff]
          intro x hx hxc
          rw [beq_iff_eq] at hxc
          exact hdup (List.any_eq_true.mpr ⟨x, hx, by rw [beq_iff_eq, hxc, hrc]⟩)
        rw [List.filter_cons_of_pos (by simp [hrc]),
          List.filter_cons_of_pos (by simp [hrc]),
          drop_duplicates_filter c rs, hfil]
        rfl
      · rw [List.filter_cons_of_neg (by simp [hrc]),
          List.filter_cons_of_neg (by simp [hrc]),
          drop_duplicates_filter c rs]

theorem drop_duplicates_sublist :
    ∀ l : Dataset, List.Sublist (drop_duplicates_club_last l) l
  | [] => List.Sublist.refl []
  | r :: rs => by
    by_cases hdup : rs.any (fun x => x.club == r.club)
    · rw [drop_duplicates_club_last, if_pos hdup]
      exact (drop_duplicates_sublist rs).cons r
    · rw [drop_duplicates_club_last, if_neg hdup]
      exact (drop_duplicates_sublist rs).cons₂ r

theorem sorted_dateLE_getLast :
    ∀ (l : Dataset), l.Sorted dateLE → ∀ m, l.getLast? = some m →
      ∀ x ∈ l, x.date ≤ m.date
  | [], _, m, hlast, x, hx => by simp at hlast
  | [a], _, m, hlast, x, hx => by
    have hm : m = a := by
      simp [List.getLast?] at hlast
      exact hlast.symm
    have hx' : x = a := by simpa using hx
    simp [hm, hx']
  | a :: b :: t, hs, m, hlast, x, hx => by
    rw [List.getLast?_cons_cons] at hlast
    have hs' : (b :: t).Sorted dateLE := (List.sorted_cons.mp hs).2
    rcases List.mem_cons.mp hx with rfl | hx'
    · have hm : m ∈ b :: t := by
        rcases List.mem_getLast?_eq_getLast (l := b :: t) (x := m) hlast with ⟨h, rfl⟩
        exact List.getLast_mem h
      exact (List.sorted_cons.mp hs).1 m hm
    · exact sorted_dateLE_getLast (b :: t) hs' m hlast x hx'

theorem sort_values_date_perm (l : Dataset) :
    List.Perm (sort_values_date l) l :=
  List.perm_insertionSort dateLE l

theorem sort_values_date_sorted (l : Dataset) :
    (sort_values_date l).Sorted dateLE :=
  List.sorted_insertionSort dateLE l

theorem to_datetime_none (parseDate : String → Option Nat) :
    ∀ (rows : List RawRow) (r : RawRow), r ∈ rows → parseDate r.date = none →
      to_datetime parseDate rows = none
  | [], r, hr, _ => absurd hr (List.not_mem_nil r)
  | x :: xs, r, hr, hbad => by
    rcases List.mem_cons.mp hr with rfl | hr'
    · rw [to_datetime, hbad]
    · rw [to_datetime, to_datetime_none parseDate xs r hr' hbad]
      cases parseDate x.date <;> rfl

theorem latest_filter_eq (ts : Dataset) (c : String) :
    (latest_ratings ts).filter (fun r => r.club == c)
      = ((sort_values_date ts).filter (fun r => r.club == c)).getLast?.toList :=
  drop_duplicates_filter c (sort_values_date ts)

theorem latest_filter_length (ts : Dataset) (c : String)
    (h : ∃ r ∈ ts, r.club = c) :
    ((latest_ratings ts).filter (fun r => r.club == c)).length = 1 := by
  rcases h with ⟨r, hr, hrc⟩
  have hmem : r ∈ (sort_values_date ts).filter (fun r => r.club == c) :=
    List.mem_filter.mpr ⟨(sort_values_date_perm ts).mem_iff.mpr hr, by simp [hrc]⟩
  have hne : (sort_values_date ts).filter (fun r => r.club == c) ≠ [] :=
    List.ne_nil_of_mem hmem
  rw [latest_filter_eq, List.getLast?_eq_getLast_of_ne_nil hne]
  rfl

theorem latest_mem_max (ts : Dataset) (c : String) (m : Record)
    (hm : m ∈ latest_ratings ts) (hmc : m.club = c) :
    ∀ x ∈ ts, x.club = c → x.date ≤ m.date := by
  intro x hx hxc
  have hmf : m ∈ (latest_ratings ts).filter (fun r => r.club == c) :=
    List.mem_filter.mpr ⟨hm, by simp [hmc]⟩
  rw [latest_filter_eq] at hmf
  have hlast : ((sort_values_date ts).filter (fun r => r.club == c)).getLast? = some m := by
    cases hg : ((sort_values_date ts).filter (fun r => r.club == c)).getLast? with
    | none => rw [hg] at hmf; exact absurd hmf (List.not_mem_nil m)
    | some a =>
      rw [hg] at hmf
      have : m = a := by simpa [Option.toList] using hmf
      rw [this]
  have hsorted : ((sort_values_date ts).filter (fun r => r.club == c)).Sorted dateLE :=
    List.Pairwise.sublist (List.filter_sublist _) (sort_values_date_sorted ts)
  have hxf : x ∈ (sort_values_date ts).filter (fun r => r.club == c) :=
    List.mem_filter.mpr ⟨(sort_values_date_perm ts).mem_iff.mpr hx, by simp [hxc]⟩
  exact sorted_dateLE_getLast _ hsorted m hlast x hxf

theorem mem_selected_clubs (choose : List String → List String → List String)
    (d : Dataset) (c : String) (hc : c ∈ selected_clubs choose d) :
    c ∈ club_list d := by
  have := (List.mem_filter.mp hc).2
  simpa using this

/-! ## Claims -/

/-- Claim C1: every record in a Dataset returned by `load_data` has a country
in the fixed allow-list `{GER, ESP, ENG, FRA, ITA}`; in particular a row with
country `USA` never appears in the returned Dataset. -/
theorem claim_C1 (parseDate : String → Option Nat) (fs : Option (List RawRow))
    (d : Dataset) (msgs : List String)
    (h : load_data parseDate fs = .ok (some d, msgs)) :
    ∀ r ∈ d, r.country ∈ top_leagues ∧ r.country ≠ "USA" := by
  intro r hr
  cases fs with
  | none =>
    rw [load_data] at h
    simp at h
  | some rows =>
    rw [load_data] at h
    cases hdt : to_datetime parseDate rows with
    | none => rw [hdt] at h; exact absurd h (by simp)
    | some df =>
      rw [hdt] at h
      simp only [PyResult.ok.injEq, Prod.mk.injEq, Option.some.injEq] at h
      obtain ⟨hd, -⟩ := h
      subst hd
      have hmem : r.country ∈ top_leagues := by
        simpa using (List.mem_filter.mp hr).2
      refine ⟨hmem, fun hUSA => ?_⟩
      rw [hUSA] at hmem
      exact absurd hmem (by decide)

/-- Witness for C1 on the spec-scenario file: a record of the loaded dataset
has an allow-list country and in particular not USA. -/
theorem claim_C1_witness :
    recMC0.country ∈ top_leagues ∧ recMC0.country ≠ "USA" :=
  claim_C1 pdSample (some rowsSample) dsSample [] (by decide) recMC0 (by decide)

/-- Claim C2: for a non-empty selection S, the time-series view is exactly
the subsequence of the dataset made of the records whose club is in S: it is
a sublist of the dataset (hence in original relative order), every record in
it has its club in S, records whose club is in S are kept with their
multiplicity, and records whose club is not in S are excluded. -/
theorem claim_C2 (d : Dataset) (S : List String) (_hS : S ≠ []) :
    List.Sublist (subset_data d S) d ∧
    (∀ r ∈ subset_data d S, r.club ∈ S) ∧
    (∀ r : Record, r.club ∈ S → (subset_data d S).count r = d.count r) ∧
    (∀ r : Record, r.club ∉ S → r ∉ subset_data d S) := by
  refine ⟨List.filter_sublist d, ?_, ?_, ?_⟩
  · intro r hr
    simpa using (List.mem_filter.mp hr).2
  · intro r hr
    exact List.count_filter (by simpa using hr)
  · intro r hr hmem
    exact hr (by simpa using (List.mem_filter.mp hmem).2)

/-- Witness for C2 at the spec-scenario dataset and the selection consisting
of Man City alone, instantiated at concrete records. -/
theorem claim_C2_witness :
    List.Sublist (subset_data dsSample ["Man City"]) dsSample ∧
    recMC0.club ∈ ["Man City"] ∧
    (subset_data dsSample ["Man City"]).count recMC0 = dsSample.count recMC0 ∧
    recRM ∉ subset_data dsSample ["Man City"] :=
  ⟨(claim_C2 dsSample ["Man City"] (by decide)).1,
   (claim_C2 dsSample ["Man City"] (by decide)).2.1 recMC0 (by decide),
   (claim_C2 dsSample ["Man City"] (by decide)).2.2.1 recMC0 (by decide),
   (claim_C2 dsSample ["Man City"] (by decide)).2.2.2 recRM (by decide)⟩

/-- Claim C3: for every club c the user selected, the latest-snapshot view
contains exactly one record whose club is c, and its date is greater than or
equal to the date of every record for c in the time-series view. -/
theorem claim_C3 (d : Dataset) (choose : List String → List String → List String)
    (c : String) (hc : c ∈ selected_clubs choose d) :
    ((latest_ratings (subset_data d (selected_clubs choose d))).filter
        (fun r => r.club == c)).length = 1 ∧
    (∀ m ∈ latest_ratings (subset_data d (selected_clubs choose d)), m.club = c →
      ∀ x ∈ subset_data d (selected_clubs choose d), x.club = c → x.date ≤ m.date) := by
  have hcl : c ∈ club_list d := mem_selected_clubs choose d c hc
  obtain ⟨r, hr, hrc⟩ := (mem_club_list d c).mp hcl
  have hrts : r ∈ subset_data d (selected_clubs choose d) :=
    List.mem_filter.mpr ⟨hr, by simpa [hrc] using hc⟩
  exact ⟨latest_filter_length _ c ⟨r, hrts, hrc⟩,
    fun m hm hmc x hx hxc => latest_mem_max _ c m hm hmc x hx hxc⟩

/-- Witness for C3: in the spec scenario with Man City and Real Madrid
selected, the snapshot has exactly one Man City record and it carries the
maximal Man City date. -/
theorem claim_C3_witness :
    ((latest_ratings (subset_data dsSample (selected_clubs chooseMC dsSample))).filter
        (fun r => r.club == "Man City")).length = 1 ∧
    recMC0.date ≤ recMC1.date :=
  ⟨(claim_C3 dsSample chooseMC "Man City" (by decide)).1,
   (claim_C3 dsSample chooseMC "Man City" (by decide)).2 recMC1 (by decide) (by decide)
     recMC0 (by decide) (by decide)⟩

/-- Claim C5: on a loaded dataset, an empty selection makes the run emit the
empty-state warning (and no error), produce no time-series view, no snapshot
view and no chart or table data, and terminate normally with the dataset
still loaded; a subsequent run of the same state with a non-empty selection
produces the views. -/
theorem claim_C5 (parseDate : String → Option Nat)
    (choose : List String → List String → List String)
    (rows : List RawRow) (d : Dataset)
    (hload : load_data parseDate (some rows) = .ok (some d, []))
    (hempty : selected_clubs choose d = []) :
    runApp parseDate choose (some rows) =
      .ok ({ errors := [], warnings := [warningMsg], scatter_chart := none,
             bubble_chart := none, table := none },
           { fs := some rows, elo_data := some d }) ∧
    (∀ choose2, selected_clubs choose2 d ≠ [] →
      runApp parseDate choose2 (some rows) =
        .ok ({ errors := [], warnings := [],
               scatter_chart := some (subset_data d (selected_clubs choose2 d)),
               bubble_chart := some (latest_ratings (subset_data d (selected_clubs choose2 d))),
               table := some (subset_data d (selected_clubs choose2 d)) },
             { fs := some rows, elo_data := some d })) := by
  constructor
  · rw [runApp, hload]
    simp [hempty]
  · intro choose2 hne
    rw [runApp, hload]
    simp [List.isEmpty_eq_false.mpr hne, deriveViews]

/-- Witness for C5: on the spec-scenario file, deselecting everything yields
the warning and no views, while re-selecting the two clubs yields the
views. -/
theorem claim_C5_witness :
    runApp pdSample chooseNone (some rowsSample) =
      .ok ({ errors := [], warnings := [warningMsg], scatter_chart := none,
             bubble_chart := none, table := none },
           { fs := some rowsSample, elo_data := some dsSample }) ∧
    runApp pdSample chooseMC (some rowsSample) =
      .ok ({ errors := [], warnings := [],
             scatter_chart := some (subset_data dsSample (selected_clubs chooseMC dsSample)),
             bubble_chart := some (latest_ratings (subset_data dsSample (selected_clubs chooseMC dsSample))),
             table := some (subset_data dsSample (selected_clubs chooseMC dsSample)) },
           { fs := some rowsSample, elo_data := some dsSample }) :=
  ⟨(claim_C5 pdSample chooseNone rowsSample dsSample (by decide) (by decide)).1,
   (claim_C5 pdSample chooseNone rowsSample dsSample (by decide) (by decide)).2
     chooseMC (by decide)⟩

/-- Claim C6: when the file at the given path does not exist, the run records
the user-visible file-not-found error, produces no dataset, no views and no
chart data, and does not crash the process (the result is `ok`, not
`raised`). -/
theorem claim_C6 (parseDate : String → Option Nat)
    (choose : List String → List String → List String) :
    runApp parseDate choose none =
      .ok ({ errors := [fileNotFoundMsg filepath], warnings := [],
             scatter_chart := none, bubble_chart := none, table := none },
           { fs := none, elo_data := none }) := rfl

/-- Claim C7: the club list offered by the selector is sorted in
lexicographic ascending order (the sort relation coincides with the
lexicographic order on the character data), has no duplicates, and contains
exactly the club names occurring in the dataset. -/
theorem claim_C7 (d : Dataset) :
    (club_list d).Sorted strLE ∧
    (∀ a b : String, strLE a b ↔ a = b ∨ List.Lex (· < ·) a.data b.data) ∧
    (club_list d).Nodup ∧
    (∀ c : String, c ∈ club_list d ↔ ∃ r ∈ d, r.club = c) :=
  ⟨club_list_sorted d, strLE_iff_lex, club_list_nodup d, mem_club_list d⟩

/-- Claim C8: the default selection equals the fixed preferred-club list
filtered to the clubs occurring in the dataset, preserving the preferred
order (it is a sublist of the preferred list). -/
theorem claim_C8 (d : Dataset) :
    default_selection d
      = default_clubs.filter (fun c => (d.map Record.club).contains c) ∧
    List.Sublist (default_selection d) default_clubs := by
  constructor
  · rw [default_selection]
    apply List.filter_congr
    intro c _
    have hiff : c ∈ club_list d ↔ c ∈ d.map Record.club := by
      rw [mem_club_list]
      simp [List.mem_map]
    rw [Bool.eq_iff_iff, List.elem_iff, List.elem_iff]
    exact hiff
  · exact List.filter_sublist _

/-- Claim C9: an unparseable date anywhere in the file makes the whole load
raise an uncaught exception — no row is skipped — even when the offending
row would later have been removed by the country filter (no hypothesis on
the row's country is needed). -/
theorem claim_C9 (parseDate : String → Option Nat) (rows : List RawRow)
    (r : RawRow) (hr : r ∈ rows) (hbad : parseDate r.date = none) :
    load_data parseDate (some rows) = .raised := by
  rw [load_data, to_datetime_none parseDate rows r hr hbad]

/-- Witness for C9: a USA row (outside the allow-list) with an unparseable
date still makes the whole load raise. -/
theorem claim_C9_witness : load_data pdSample (some rowsBad) = .raised :=
  claim_C9 pdSample rowsBad rowBad (by decide) (by decide)

/-- Claim C10: a run has no side effect beyond its outputs: the file system
is unchanged at the end of the run, the `elo_data` binding at the end of the
run is exactly what `load_data` returned (deriving the views did not change
it), and the view derivation returns its dataset argument unchanged. -/
theorem claim_C10 (parseDate : String → Option Nat)
    (choose : List String → List String → List String)
    (fs : Option (List RawRow)) (out : Output) (st : RunState)
    (h : runApp parseDate choose fs = .ok (out, st)) :
    st.fs = fs ∧
    load_data parseDate fs = .ok (st.elo_data, out.errors) ∧
    ∀ (d : Dataset) (sel : List String), (deriveViews d sel).2 = d := by
  cases hload : load_data parseDate fs with
  | raised => rw [runApp, hload] at h; exact absurd h (by simp)
  | ok p =>
    obtain ⟨elo, errs⟩ := p
    cases elo with
    | none =>
      rw [runApp, hload] at h
      simp only [PyResult.ok.injEq, Prod.mk.injEq] at h
      obtain ⟨hout, hst⟩ := h
      subst hout; subst hst
      exact ⟨rfl, rfl, fun _ _ => rfl⟩
    | some d =>
      rw [runApp, hload] at h
      by_cases hsel : (selected_clubs choose d).isEmpty
      · simp [hsel] at h
        obtain ⟨hout, hst⟩ := h
        subst hout; subst hst
        exact ⟨rfl, rfl, fun _ _ => rfl⟩
      · simp [hsel] at h
        obtain ⟨hout, hst⟩ := h
        subst hout; subst hst
        exact ⟨rfl, rfl, fun _ _ => rfl⟩

/-- Witness for C10 on the spec-scenario run: final file system and dataset
binding are as loaded, and the view derivation preserves its input. -/
theorem claim_C10_witness :
    stSample.fs = some rowsSample ∧
    load_data pdSample (some rowsSample) = .ok (stSample.elo_data, outSample.errors) ∧
    (deriveViews dsSample ["Man City"]).2 = dsSample :=
  ⟨(claim_C10 pdSample chooseMC (some rowsSample) outSample stSample (by decide)).1,
   (claim_C10 pdSample chooseMC (some rowsSample) outSample stSample (by decide)).2.1,
   (claim_C10 pdSample chooseMC (some rowsSample) outSample stSample (by decide)).2.2
     dsSample ["Man City"]⟩

end MainApp
